import Mathlib

/-!
Verification development for the image-resizing utility
(source: `src/resize_pic_py/get_dpi_pic.py`).

The Python source is shallowly embedded:

* Python `float` arithmetic on millimetre/DPI values is modelled by exact
  rationals (`ℚ`); the concrete values proved about here are far from any
  rounding boundary, so the two agree.
* Python's built-in `round` (round-half-to-even on the already-integral part)
  is modelled by `pyRound`.
* PIL images are modelled by `Img`: a pixel grid of RGBA quadruples together
  with a colour mode and the optional `info["transparency"]` colour key.
* The filesystem, the Ghostscript / Inkscape subprocesses, and the external
  decoding libraries (Pillow, rawpy, cairosvg) are opaque fallible
  capabilities; an `Env` value records, for one invocation, whether each of
  them is available and what it yields.  Temporary raster files created by the
  external rasterizers are counted explicitly: every embedded operation
  returns, besides its result, the number of temp files it created and left
  on disk.
-/

/-- Round-half-to-even on a rational, as Python's built-in `round` behaves on
the exact value.  (Python rounds IEEE doubles; no value proved about in this
file is near a half-integer boundary, where the two could differ.) -/
def pyRound (q : ℚ) : ℤ :=
  if q - ⌊q⌋ < 1/2 then ⌊q⌋
  else if 1/2 < q - ⌊q⌋ then ⌊q⌋ + 1
  else if ⌊q⌋ % 2 = 0 then ⌊q⌋ else ⌊q⌋ + 1

/-- `mm_to_px(mm, dpi)`: `inches = mm / 25.4; return int(round(inches * dpi))`. -/
def mm_to_px (mm dpi : ℚ) : ℤ :=
  pyRound (mm / (25.4 : ℚ) * dpi)

/-- `str.upper()` for the ASCII keys used here (implemented over the
character list so that it evaluates inside the kernel). -/
def pyUpper (s : String) : String := (s.toList.map Char.toUpper).asString

/-- `str.lower()` for ASCII strings, over the character list. -/
def pyLower (s : String) : String := (s.toList.map Char.toLower).asString

/-- A Python dict of paper sizes.  `ref` models CPython object identity (the
`is` operator): the five module-level catalog dicts carry distinct `ref`
values, and any dict constructed elsewhere has a `ref` different from all
five, even when its contents coincide with one of them. -/
structure PyDict where
  ref : ℕ
  entries : List (String × ℚ × ℚ)

/-- `A_SIZES_MM` module-level dict. -/
def A_SIZES_MM : PyDict :=
  { ref := 0
    entries := [("A1", 594, 841), ("A2", 420, 594), ("A3", 297, 420), ("A4", 210, 297)] }

/-- `TWO_PER_THREE_SIZES_MM` module-level dict. -/
def TWO_PER_THREE_SIZES_MM : PyDict :=
  { ref := 1
    entries := [("24X36", 610, 910), ("20X30", 510, 760), ("16X24", 410, 610),
                ("12X18", 300, 460), ("8X12", 200, 300)] }

/-- `FOUR_PER_FIVE_SIZES_MM` module-level dict. -/
def FOUR_PER_FIVE_SIZES_MM : PyDict :=
  { ref := 2
    entries := [("24X30", 600, 760), ("20X25", 510, 630), ("16X20", 400, 500),
                ("12X15", 300, 380), ("8X10", 200, 250)] }

/-- `THREE_PER_FOUR_SIZES_MM` module-level dict. -/
def THREE_PER_FOUR_SIZES_MM : PyDict :=
  { ref := 3
    entries := [("18X24", 460, 610), ("15X20", 380, 510), ("12X16", 300, 400),
                ("9X12", 230, 300)] }

/-- `ELEVEN_X_FOURTEEN_SIZES_MM` module-level dict. -/
def ELEVEN_X_FOURTEEN_SIZES_MM : PyDict :=
  { ref := 4
    entries := [("11X14", 280, 360)] }

/-- Error taxonomy: one constructor per distinct Python exception raised by
the source (`RuntimeError`, `FileNotFoundError`, `ValueError`, and the
exception propagating out of `Image.open` on an unreadable file). -/
inductive PyErr where
  | fileNotFound (path : String)
  | gsNotFound
  | gsFailed (path : String)
  | imageOpenFailed
  | inkscapeNotFound
  | inkscapeFailed (path : String)
  | rawDecodeFailed (path : String)
  | svgRasterFailed (path : String)
  | unknownSizeKey (key : String)
  | unsupported (path : String)
  deriving DecidableEq

/-- `paper_size_px(size_key, dpi, landscape, sizes_mm)`: case-insensitive key
lookup (via `size_key.upper()`), `ValueError` on a missing key, orientation
swap when `landscape.lower()` is one of `"horizontal"`, `"landscape"`, `"h"`,
then millimetre→pixel conversion of each coordinate. -/
def paper_size_px (size_key : String) (dpi : ℚ) (landscape : String)
    (sizes_mm : List (String × ℚ × ℚ)) : Except PyErr (ℤ × ℤ) :=
  match sizes_mm.lookup (pyUpper size_key) with
  | none => .error (.unknownSizeKey size_key)
  | some wh =>
      if pyLower landscape ∈ (["horizontal", "landscape", "h"] : List String) then
        .ok (mm_to_px wh.2 dpi, mm_to_px wh.1 dpi)
      else
        .ok (mm_to_px wh.1 dpi, mm_to_px wh.2 dpi)

/-- `RAW_EXTS` (a Python set; membership is all that is used of it). -/
def RAW_EXTS : List String :=
  [".cr2", ".cr3", ".nef", ".arw", ".dng", ".rw2", ".orf", ".raf", ".pef"]

/-- `VECTOR_EXTS`. -/
def VECTOR_EXTS : List String := [".svg"]

/-- `PS_PDF_EXTS` (formats that require Ghostscript). -/
def PS_PDF_EXTS : List String := [".eps", ".ps", ".ai", ".pdf"]

/-- `os.path.splitext(p)[1].lower()`: the suffix of the name starting at the
last dot, lowercased; leading dots are not extension separators.  Directory
components are not modelled; the resolved paths appearing in this development
are plain absolute file names without dot-files. -/
def extOf (p : String) : String :=
  let cs := p.toList
  let lead := cs.takeWhile (fun c => c = '.')
  let rest := cs.drop lead.length
  if rest.contains '.' then
    pyLower (('.' :: (rest.reverse.takeWhile (fun c => c ≠ '.')).reverse).asString)
  else ""

/-- PIL colour modes used by the source: single-channel (`"L"`),
grey+alpha (`"LA"`), `"RGB"`, `"RGBA"`. -/
inductive PMode where
  | L | LA | RGB | RGBA
  deriving DecidableEq

/-- An in-memory PIL image.  `px` stores an (r, g, b, a) quadruple for every
coordinate (only coordinates with `x < width` and `y < height` are
meaningful); for the single-channel modes the convention is r = g = b = grey
level.  `transparency` models the optional `info["transparency"]` colour key
of an `L`/`RGB` image (an `L` key is stored as an equal triple).  Embedded
EXIF orientation metadata is not modelled, so `ImageOps.exif_transpose` is
the identity on these images, as it is in PIL on images without the tag. -/
structure Img where
  mode : PMode
  width : ℕ
  height : ℕ
  px : ℕ → ℕ → ℕ × ℕ × ℕ × ℕ
  transparency : Option (ℕ × ℕ × ℕ)

/-- The colour part of a stored pixel. -/
def rgbOf (q : ℕ × ℕ × ℕ × ℕ) : ℕ × ℕ × ℕ := (q.1, q.2.1, q.2.2.1)

/-- The alpha part of a stored pixel. -/
def alphaOf (q : ℕ × ℕ × ℕ × ℕ) : ℕ := q.2.2.2

/-- `im.convert("RGBA")`: `RGBA`/`LA` keep their alpha; an `L`/`RGB` image
with a transparency colour key maps matching pixels to alpha 0 and the rest
to 255 (PIL's transparent conversion); without a key the image becomes fully
opaque.  The produced `RGBA` image carries no colour key of its own (PIL
deletes or consumes `info["transparency"]` in these conversions; converting
an image that is already `RGBA` keeps its `info`). -/
def Img.convertRGBA (im : Img) : Img :=
  { mode := .RGBA, width := im.width, height := im.height
    px := fun x y =>
      let q := im.px x y
      match im.mode with
      | .RGBA => q
      | .LA => q
      | .L | .RGB =>
          match im.transparency with
          | some k => (q.1, q.2.1, q.2.2.1, if rgbOf q = k then 0 else 255)
          | none => (q.1, q.2.1, q.2.2.1, 255)
    transparency := if im.mode = .RGBA then im.transparency else none }

/-- `im.convert("RGB")`: drops the alpha channel without compositing.  PIL
keeps (and converts) an `L`/`RGB` colour key across this conversion and
deletes the key for the alpha-band modes. -/
def Img.convertRGB (im : Img) : Img :=
  { mode := .RGB, width := im.width, height := im.height
    px := fun x y =>
      let q := im.px x y
      (q.1, q.2.1, q.2.2.1, 255)
    transparency :=
      match im.mode with
      | .L | .RGB => im.transparency
      | _ => none }

/-- `im.crop((l, u, r, d))` for a box inside the image: the `(r - l) × (d - u)`
window with origin `(l, u)`. -/
def Img.crop (im : Img) (bb : ℕ × ℕ × ℕ × ℕ) : Img :=
  { mode := im.mode, width := bb.2.2.1 - bb.1, height := bb.2.2.2 - bb.2.1
    px := fun x y => im.px (x + bb.1) (y + bb.2.1)
    transparency := im.transparency }

/-- `Image.new(mode, (w, h), colour)` with an explicit alpha for the fill. -/
def Img.new (m : PMode) (w h : ℕ) (c : ℕ × ℕ × ℕ) (a : ℕ) : Img :=
  { mode := m, width := w, height := h
    px := fun _ _ => (c.1, c.2.1, c.2.2, a)
    transparency := none }

/-- `im.resize((w, h), Image.LANCZOS)`: exact output dimensions and mode.
The LANCZOS kernel is floating-point; resampled pixel values are modelled by
nearest-neighbour sampling, and no theorem below depends on them. -/
def Img.resize (im : Img) (w h : ℕ) : Img :=
  { mode := im.mode, width := w, height := h
    px := fun x y => im.px (x * im.width / w) (y * im.height / h)
    transparency := im.transparency }

/-- `canvas.paste(im, (ox, oy))` without a mask: the pasted image is first
converted to the canvas mode, then its pixels overwrite the canvas inside the
pasted rectangle.  Canvas dimensions, mode and info are unchanged. -/
def Img.paste (canvas : Img) (im : Img) (ox oy : ℤ) : Img :=
  let src := match canvas.mode with
    | .RGBA => im.convertRGBA
    | .RGB => im.convertRGB
    | _ => im
  { canvas with px := fun x y =>
      if ox ≤ (x : ℤ) ∧ (x : ℤ) < ox + src.width ∧ oy ≤ (y : ℤ) ∧ (y : ℤ) < oy + src.height
      then src.px ((x : ℤ) - ox).toNat ((y : ℤ) - oy).toNat
      else canvas.px x y }

/-- The columns `x < w` that contain a pixel satisfying `p`. -/
def activeCols (w h : ℕ) (p : ℕ → ℕ → Bool) : Finset ℕ :=
  (Finset.range w).filter (fun x => (List.range h).any (fun y => p x y) = true)

/-- The rows `y < h` that contain a pixel satisfying `p`. -/
def activeRows (w h : ℕ) (p : ℕ → ℕ → Bool) : Finset ℕ :=
  (Finset.range h).filter (fun y => (List.range w).any (fun x => p x y) = true)

/-- `getbbox()` of a single-band image, with band value `p x y`: the smallest
`(left, upper, right, lower)` box (right/lower exclusive) containing every
non-zero pixel, or `None` when all pixels are zero. -/
def bboxOf (w h : ℕ) (p : ℕ → ℕ → Bool) : Option (ℕ × ℕ × ℕ × ℕ) :=
  if hne : (activeCols w h p).Nonempty ∧ (activeRows w h p).Nonempty then
    some ((activeCols w h p).min' hne.1, (activeRows w h p).min' hne.2,
          (activeCols w h p).max' hne.1 + 1, (activeRows w h p).max' hne.2 + 1)
  else none

/-- The non-zero-alpha predicate used on `rgba.split()[-1]`. -/
def nzA (im : Img) : ℕ → ℕ → Bool := fun x y => decide (alphaOf (im.px x y) ≠ 0)

/-- The non-zero predicate of `ImageChops.difference(im, bg_img)`: a pixel
differs from the solid background in some channel. -/
def dW (im : Img) (bg : ℕ × ℕ × ℕ) : ℕ → ℕ → Bool :=
  fun x y => decide (rgbOf (im.px x y) ≠ bg)

/-- `autocrop_white(im, bg)`: convert to `RGB` if needed, diff against a
solid `bg` canvas, crop to the diff's bounding box when there is one. -/
def autocrop_white (im : Img) (bg : ℕ × ℕ × ℕ := (255, 255, 255)) : Img :=
  let im2 := if im.mode ≠ .RGB then im.convertRGB else im
  match bboxOf im2.width im2.height (dW im2 bg) with
  | some bb => im2.crop bb
  | none => im2

/-- `autocrop_auto(im)`: convert to `RGBA`, take the bounding box of the
alpha band; crop to it when it exists, otherwise fall back to
`autocrop_white(im)`.  (The `try/except` wrappers in the source only matter
for exceptions from PIL internals, which the embedding has none of.) -/
def autocrop_auto (im : Img) : Img :=
  match bboxOf im.convertRGBA.width im.convertRGBA.height (nzA im.convertRGBA) with
  | some bb => im.convertRGBA.crop bb
  | none => autocrop_white im

/-- PIL's `MULDIV255` blending primitive (`(t + (t >> 8)) >> 8` of
`t = a*b + 128`), used by `paste` with a mask. -/
def muldiv255 (a b : ℕ) : ℕ :=
  let t := a * b + 128
  (t + t / 256) / 256

/-- `flatten_alpha_to_bg(im, bg_color)`: a non-`RGBA` image is returned
unchanged; an `RGBA` image is composited over a solid `RGB` background via
`bg.paste(im, mask=alpha)`. -/
def flatten_alpha_to_bg (im : Img) (bg_color : ℕ × ℕ × ℕ := (255, 255, 255)) : Img :=
  if im.mode ≠ .RGBA then im
  else
    { mode := .RGB, width := im.width, height := im.height
      px := fun x y =>
        let q := im.px x y
        let a := alphaOf q
        (muldiv255 bg_color.1 (255 - a) + muldiv255 q.1 a,
         muldiv255 bg_color.2.1 (255 - a) + muldiv255 q.2.1 a,
         muldiv255 bg_color.2.2 (255 - a) + muldiv255 q.2.2.1 a, 255)
      transparency := none }

/-- `out_path.lower().endswith(".png")`. -/
def endsWithPng (p : String) : Bool := List.isSuffixOf ".png".toList (pyLower p).toList

/-- The geometry of the `fit` branch: `ratio = min(target_w/w, target_h/h)`
(Python true division, exact here), `new_w = max(1, int(round(w*ratio)))`,
`new_h = max(1, int(round(h*ratio)))`, and the centring offsets
`(target_w - new_w) // 2`, `(target_h - new_h) // 2` (Python floor
division).  Returned as `(new_w, new_h, x, y)`. -/
def fitGeometry (w h : ℕ) (target_w target_h : ℤ) : ℤ × ℤ × ℤ × ℤ :=
  let sc : ℚ := min ((target_w : ℚ) / (w : ℚ)) ((target_h : ℚ) / (h : ℚ))
  let new_w : ℤ := max 1 (pyRound ((w : ℚ) * sc))
  let new_h : ℤ := max 1 (pyRound ((h : ℚ) * sc))
  (new_w, new_h, Int.fdiv (target_w - new_w) 2, Int.fdiv (target_h - new_h) 2)

/-- The `fit` placement branch of `resize_to_a_size`: scale by the binding
ratio (upscaling allowed), allocate a transparent `RGBA` canvas when the
image still has alpha and the output is a PNG, else an opaque `RGB` canvas
of the background colour, and paste the scaled image centred. -/
def fitPlace (im : Img) (target_w target_h : ℤ) (has_alpha : Bool)
    (out_path : String) (bg_color : ℕ × ℕ × ℕ) : Img :=
  let g := fitGeometry im.width im.height target_w target_h
  let im_copy := im.resize g.1.toNat g.2.1.toNat
  let out :=
    if has_alpha && endsWithPng out_path then
      Img.new .RGBA target_w.toNat target_h.toNat (255, 255, 255) 0
    else
      Img.new .RGB target_w.toNat target_h.toNat bg_color 255
  out.paste im_copy g.2.2.1 g.2.2.2

/-- `ImageOps.fit(im, (w, h), method=Image.LANCZOS, centering=(0.5, 0.5))`:
uniform cover-scale and centred crop.  Output dimensions and mode are exact;
the sub-pixel crop-box arithmetic is approximated with integer division, and
no theorem below depends on the cropped content. -/
def ImageOps_fit (im : Img) (w h : ℕ) : Img :=
  let wide := im.width * h ≥ im.height * w
  let cw := if wide then im.height * w / h else im.width
  let ch := if wide then im.height else im.width * h / w
  let l := (im.width - cw) / 2
  let u := (im.height - ch) / 2
  (im.crop (l, u, l + cw, u + ch)).resize w h

/-- The per-invocation behaviour of everything outside the Python process:
the filesystem and the external decoding capabilities.  A `some` image means
the capability succeeds and decodes to that image; `none` means it raises.
`gsImage` / `inkscapeImage` are what `Image.open` yields on the temp raster
written by a successful external-rasterizer run. -/
structure Env where
  fileExists : Bool
  resolvedPath : String
  gsFound : Bool
  gsRunOk : Bool
  gsImage : Option Img
  pillowImage : Option Img
  rawImage : Option Img
  cairosvgImage : Option Img
  inkscapeFound : Bool
  inkscapeRunOk : Bool
  inkscapeImage : Option Img

/-- A decoded image together with whether `_temp_raster_path` was set on it
(true exactly when it was produced by an external rasterizer). -/
structure Opened where
  img : Img
  tempRasterPath : Bool

/-- `_rasterize_with_ghostscript(path, dpi)`.  The second component counts
temp raster files created by this call and still on disk when it returns or
raises: the temp file is created after the tool/existence checks; the
`except subprocess.CalledProcessError` branch removes it; a failure of
`Image.open` on the temp file is not caught here, so the temp file stays. -/
def rasterize_with_ghostscript (env : Env) : Except PyErr Opened × ℕ :=
  if env.gsFound = false then (.error .gsNotFound, 0)
  else if env.fileExists = false then (.error (.fileNotFound env.resolvedPath), 0)
  else if env.gsRunOk then
    match env.gsImage with
    | some img => (.ok ⟨img, true⟩, 1)
    | none => (.error .imageOpenFailed, 1)
  else (.error (.gsFailed env.resolvedPath), 0)

/-- `_rasterize_svg_with_inkscape(path, dpi)`, with the same temp-file
accounting as the Ghostscript helper. -/
def rasterize_svg_with_inkscape (env : Env) : Except PyErr Opened × ℕ :=
  if env.inkscapeFound = false then (.error .inkscapeNotFound, 0)
  else if env.fileExists = false then (.error (.fileNotFound env.resolvedPath), 0)
  else if env.inkscapeRunOk then
    match env.inkscapeImage with
    | some img => (.ok ⟨img, true⟩, 1)
    | none => (.error .imageOpenFailed, 1)
  else (.error (.inkscapeFailed env.resolvedPath), 0)

/-- `open_image_any(path, raster_dpi, skip_gs_files, skip_svg_files)`:
existence check, then the decoder cascade — Ghostscript formats first
(failures suppressed to the `None` sentinel when `skip_gs_files`), then a
generic Pillow open with silent fall-through, then the RAW branch (whose
failure always raises `ValueError`), then the SVG branch (cairosvg, then
Inkscape, failures suppressed when `skip_svg_files`), then the final
`ValueError` for anything else. -/
def open_image_any (env : Env) (skip_gs_files skip_svg_files : Bool) :
    Except PyErr (Option Opened) × ℕ :=
  if env.fileExists = false then (.error (.fileNotFound env.resolvedPath), 0)
  else
    let ext := extOf env.resolvedPath
    if ext ∈ PS_PDF_EXTS then
      match rasterize_with_ghostscript env with
      | (.ok o, t) => (.ok (some o), t)
      | (.error e, t) => if skip_gs_files then (.ok none, t) else (.error e, t)
    else
      match env.pillowImage with
      | some img => (.ok (some ⟨img, false⟩), 0)
      | none =>
          if ext ∈ RAW_EXTS then
            match env.rawImage with
            | some img => (.ok (some ⟨img, false⟩), 0)
            | none => (.error (.rawDecodeFailed env.resolvedPath), 0)
          else if ext ∈ VECTOR_EXTS then
            match env.cairosvgImage with
            | some img => (.ok (some ⟨img, false⟩), 0)
            | none =>
                match rasterize_svg_with_inkscape env with
                | (.ok o, t) => (.ok (some o), t)
                | (.error _, t) =>
                    if skip_svg_files then (.ok none, t)
                    else (.error (.svgRasterFailed env.resolvedPath), t)
          else (.error (.unsupported env.resolvedPath), 0)

/-- `has_alpha = im.mode in ("RGBA", "LA") or ("transparency" in im.info)`. -/
def hasAlphaInfo (im : Img) : Bool :=
  decide (im.mode = .RGBA ∨ im.mode = .LA ∨ im.transparency.isSome = true)

/-- The three placement modes of `resize_to_a_size` (`"stretch"`, `"fill"`,
anything else → `fit`). -/
def placeCanvas (pm op : String) (bg_color : ℕ × ℕ × ℕ) (target_w target_h : ℤ)
    (im2 : Img) : Img :=
  if pm = "stretch" then im2.resize target_w.toNat target_h.toNat
  else if pm = "fill" then ImageOps_fit im2 target_w.toNat target_h.toNat
  else fitPlace im2 target_w target_h (hasAlphaInfo im2) op bg_color

/-- The final step before `out.save`: `if not out_path.lower().endswith(".png")
and out.mode == "RGBA": out = out.convert("RGB")`. -/
def saveConvert (op : String) (out0 : Img) : Img :=
  if endsWithPng op = false ∧ out0.mode = .RGBA then out0.convertRGB else out0

/-- The body of the `try` block of `resize_to_a_size` after a successful
decode: EXIF transpose (identity here, no metadata is modelled), optional
autocrop, optional flatten of `im.convert("RGBA")` onto the background, the
three placement modes, and the final `RGBA`→`RGB` conversion for non-PNG
output paths. -/
def processDecoded (autocrop flatten_alpha : Bool) (pm : String) (out_path : String)
    (bg_color : ℕ × ℕ × ℕ) (target_w target_h : ℤ) (im0 : Img) : Img :=
  saveConvert out_path (placeCanvas pm out_path bg_color target_w target_h
    (if flatten_alpha then
       flatten_alpha_to_bg (if autocrop then autocrop_auto im0 else im0).convertRGBA bg_color
     else (if autocrop then autocrop_auto im0 else im0)))

/-- The chain of `is` comparisons that labels the `size_dict` field of the
success record; `is` is object identity, modelled by `PyDict.ref`. -/
def sizeDictName (d : PyDict) : String :=
  if d.ref = A_SIZES_MM.ref then "A_SIZES_MM"
  else if d.ref = TWO_PER_THREE_SIZES_MM.ref then "TWO_PER_THREE_SIZES_MM"
  else if d.ref = FOUR_PER_FIVE_SIZES_MM.ref then "FOUR_PER_FIVE_SIZES_MM"
  else if d.ref = THREE_PER_FOUR_SIZES_MM.ref then "THREE_PER_FOUR_SIZES_MM"
  else if d.ref = ELEVEN_X_FOURTEEN_SIZES_MM.ref then "ELEVEN_X_FOURTEEN_SIZES_MM"
  else "CUSTOM"

/-- The success dict returned by `resize_to_a_size`.  `saved` is the raster
written to `output` (carried in the record so that properties of the output
file can be stated); the remaining fields are the dict's entries. -/
structure SuccessRec where
  size_dict : String
  size_key : String
  dpi : ℚ
  pm : String
  landscape : String
  target_px : ℤ × ℤ
  output : String
  src_path : String
  saved : Img

/-- The value returned by `resize_to_a_size`: either the success dict or one
of the error dicts `{error, message, src_path}`. -/
inductive RetVal where
  | success (rec : SuccessRec)
  | errRec (error : String) (message : String) (src_path : String)

/-- The keyword arguments of one `resize_to_a_size` call. -/
structure Args where
  src_path : String
  out_path : String
  sizes_mm : PyDict
  size_key : String
  dpi : ℚ
  pm : String
  landscape : String
  bg_color : ℕ × ℕ × ℕ
  skip_gs_files : Bool
  skip_svg_files : Bool
  autocrop : Bool
  flatten_alpha : Bool

/-- `resize_to_a_size(...)`: resolve the target pixel canvas, open the
source; a `None` sentinel is classified by extension into one of the three
error dicts; otherwise run the processing pipeline and build the success
dict.  The second component counts temp raster files created during the call
and still on disk when it completes: the `finally` block removes the file
named by the decoded image's `_temp_raster_path` attribute (when set), but
nothing removes a temp file orphaned by a failure between the external tool
run and `Image.open`. -/
def resize_to_a_size (env : Env) (a : Args) : Except PyErr RetVal × ℕ :=
  match paper_size_px a.size_key a.dpi a.landscape a.sizes_mm.entries with
  | .error e => (.error e, 0)
  | .ok wh =>
      match open_image_any env a.skip_gs_files a.skip_svg_files with
      | (.error e, t) => (.error e, t)
      | (.ok none, t) =>
          let ext := extOf env.resolvedPath
          if ext ∈ PS_PDF_EXTS then
            (.ok (.errRec "GS_REQUIRED"
              "EPS/AI/PDF needs Ghostscript. Install Ghostscript or convert to PNG/JPG first."
              env.resolvedPath), t)
          else if ext ∈ VECTOR_EXTS then
            (.ok (.errRec "SVG_TOOL_REQUIRED"
              "SVG needs Inkscape on Windows (recommended) or a working Cairo runtime."
              env.resolvedPath), t)
          else
            (.ok (.errRec "UNREADABLE" "File could not be opened." env.resolvedPath), t)
      | (.ok (some o), t) =>
          let saved := processDecoded a.autocrop a.flatten_alpha a.pm a.out_path
            a.bg_color wh.1 wh.2 o.img
          (.ok (.success
            { size_dict := sizeDictName a.sizes_mm
              size_key := pyUpper a.size_key
              dpi := a.dpi
              pm := a.pm
              landscape := a.landscape
              target_px := wh
              output := a.out_path
              src_path := env.resolvedPath
              saved := saved }),
           if o.tempRasterPath then t - 1 else t)

/-- The residual-temp-file count of a finished call. -/
def retTemps (r : Except PyErr RetVal × ℕ) : ℕ := r.2

/-- The `error` field when the call returned an error dict. -/
def retErrKind : Except PyErr RetVal × ℕ → Option String
  | (.ok (.errRec k _ _), _) => some k
  | _ => none

/-- The `src_path` field when the call returned an error dict. -/
def retErrSrc : Except PyErr RetVal × ℕ → Option String
  | (.ok (.errRec _ _ s), _) => some s
  | _ => none

/-- The `size_dict` field when the call returned a success dict. -/
def retSizeDict : Except PyErr RetVal × ℕ → Option String
  | (.ok (.success rec), _) => some rec.size_dict
  | _ => none

/-- The colour mode of the saved raster when the call returned a success
dict. -/
def retSavedMode : Except PyErr RetVal × ℕ → Option PMode
  | (.ok (.success rec), _) => some rec.saved.mode
  | _ => none

/-- Whether the mode carries an alpha channel. -/
def hasAlphaMode : PMode → Bool
  | .LA => true
  | .RGBA => true
  | _ => false

/-- Content equality of two images: same dimensions and, after conversion to
`RGBA` (which fixes one interpretation of every mode's pixels), the same
pixel values on the whole domain. -/
def contentEq (a b : Img) : Prop :=
  a.width = b.width ∧ a.height = b.height ∧
  ∀ x y, x < b.width → y < b.height → a.convertRGBA.px x y = b.convertRGBA.px x y

/-- An `Env` in which nothing exists and every capability fails. -/
def baseEnv : Env :=
  { fileExists := false, resolvedPath := "", gsFound := false, gsRunOk := false
    gsImage := none, pillowImage := none, rawImage := none, cairosvgImage := none
    inkscapeFound := false, inkscapeRunOk := false, inkscapeImage := none }

/-- The Python default keyword arguments of `resize_to_a_size`. -/
def baseArgs : Args :=
  { src_path := "", out_path := "", sizes_mm := A_SIZES_MM, size_key := "A4"
    dpi := 300, pm := "fit", landscape := "vertical", bg_color := (255, 255, 255)
    skip_gs_files := true, skip_svg_files := true, autocrop := true
    flatten_alpha := true }

/-- A 3×3 `RGB` image (no alpha channel, no colour key): white background
with a single black pixel at (1, 1). -/
def c1Img : Img :=
  { mode := .RGB, width := 3, height := 3
    px := fun x y => if x = 1 ∧ y = 1 then (0, 0, 0, 255) else (255, 255, 255, 255)
    transparency := none }

/-- A 2×2 grey+alpha (`LA`) image with partial transparency. -/
def imgLA : Img :=
  { mode := .LA, width := 2, height := 2
    px := fun _ _ => (100, 100, 100, 128), transparency := none }

/-- A 1×1 opaque `RGB` image. -/
def imgRGB1 : Img :=
  { mode := .RGB, width := 1, height := 1
    px := fun _ _ => (10, 20, 30, 255), transparency := none }

/-- A 100×50 opaque `RGB` image. -/
def imC3 : Img :=
  { mode := .RGB, width := 100, height := 50
    px := fun _ _ => (0, 0, 0, 255), transparency := none }

/-- A `.pdf` source on a system without Ghostscript. -/
def env4 : Env := { baseEnv with fileExists := true, resolvedPath := "/in/doc.pdf" }

/-- A call on `doc.pdf` with the module defaults (skip flags on). -/
def args4 : Args := { baseArgs with src_path := "doc.pdf", out_path := "out.png" }

/-- A RAW (`.cr2`) source that neither Pillow nor rawpy can decode. -/
def env5 : Env := { baseEnv with fileExists := true, resolvedPath := "/in/shot.cr2" }

/-- A `.pdf` source where Ghostscript is present and exits 0, but
`Image.open` fails on the temp raster it wrote (e.g. an empty output). -/
def env6 : Env :=
  { baseEnv with
    fileExists := true, resolvedPath := "/in/doc.pdf"
    gsFound := true, gsRunOk := true }

/-- A `.tif` source that Pillow decodes to the `LA` image. -/
def env8 : Env :=
  { baseEnv with
    fileExists := true, resolvedPath := "/in/pic.tif"
    pillowImage := some imgLA }

/-- A stretch-mode call with both autocrop and flatten disabled, writing to a
(non-PNG) `.tif` output. -/
def args8 : Args :=
  { baseArgs with
    src_path := "pic.tif", out_path := "out.tif", pm := "stretch"
    autocrop := false, flatten_alpha := false }

/-- A `.jpg` source that Pillow decodes to a 1×1 `RGB` image. -/
def env9 : Env :=
  { baseEnv with
    fileExists := true, resolvedPath := "/in/pic.jpg"
    pillowImage := some imgRGB1 }

/-- A stretch-mode call with flatten enabled, writing to a `.jpg` output. -/
def args9 : Args :=
  { baseArgs with
    src_path := "pic.jpg", out_path := "out.jpg", pm := "stretch"
    autocrop := false }

/-- A dict distinct (as an object) from all five module-level catalogs but
equal in content to `A_SIZES_MM`. -/
def dCustom : PyDict := { ref := 99, entries := A_SIZES_MM.entries }

/-- A stretch-mode call passing `dCustom` as `sizes_mm`. -/
def args10 : Args :=
  { baseArgs with
    src_path := "pic.jpg", out_path := "out.jpg", pm := "stretch"
    sizes_mm := dCustom, autocrop := false, flatten_alpha := false }

lemma mem_activeCols {w h : ℕ} {p : ℕ → ℕ → Bool} {x : ℕ} :
    x ∈ activeCols w h p ↔ x < w ∧ ∃ y, y < h ∧ p x y = true := by
  simp [activeCols, List.any_eq_true, List.mem_range, Finset.mem_filter, Finset.mem_range]

lemma mem_activeRows {w h : ℕ} {p : ℕ → ℕ → Bool} {y : ℕ} :
    y ∈ activeRows w h p ↔ y < h ∧ ∃ x, x < w ∧ p x y = true := by
  simp [activeRows, List.any_eq_true, List.mem_range, Finset.mem_filter, Finset.mem_range]

lemma bboxOf_eq_none {w h : ℕ} {p : ℕ → ℕ → Bool} :
    bboxOf w h p = none ↔ ∀ x y, x < w → y < h → p x y = false := by
  rw [bboxOf]
  split_ifs with hne
  · simp only [reduceCtorEq, false_iff]
    intro hall
    obtain ⟨x, hx⟩ := hne.1
    rw [mem_activeCols] at hx
    obtain ⟨hxw, y, hyh, hp⟩ := hx
    rw [hall x y hxw hyh] at hp
    exact Bool.false_ne_true hp
  · simp only [true_iff]
    intro x y hx hy
    by_contra hb
    rw [Bool.not_eq_false] at hb
    exact hne ⟨⟨x, mem_activeCols.mpr ⟨hx, y, hy, hb⟩⟩,
               ⟨y, mem_activeRows.mpr ⟨hy, x, hx, hb⟩⟩⟩

lemma bboxOf_spec {w h : ℕ} {p : ℕ → ℕ → Bool} {l u r d : ℕ}
    (hb : bboxOf w h p = some (l, u, r, d)) :
    (∃ y, y < h ∧ p l y = true) ∧ (∃ y, y < h ∧ p (r - 1) y = true) ∧
    (∃ x, x < w ∧ p x u = true) ∧ (∃ x, x < w ∧ p x (d - 1) = true) ∧
    (∀ x y, x < w → y < h → p x y = true → l ≤ x ∧ x < r ∧ u ≤ y ∧ y < d) ∧
    l < r ∧ r ≤ w ∧ u < d ∧ d ≤ h := by
  rw [bboxOf] at hb
  split_ifs at hb with hne
  · obtain ⟨hc, hr⟩ := hne
    simp only [Option.some.injEq, Prod.mk.injEq] at hb
    obtain ⟨h1, h2, h3, h4⟩ := hb
    subst h1; subst h2; subst h3; subst h4
    have hminc := Finset.min'_mem (activeCols w h p) hc
    have hmaxc := Finset.max'_mem (activeCols w h p) hc
    have hminr := Finset.min'_mem (activeRows w h p) hr
    have hmaxr := Finset.max'_mem (activeRows w h p) hr
    rw [mem_activeCols] at hminc hmaxc
    rw [mem_activeRows] at hminr hmaxr
    have hcm := Finset.min'_le (activeCols w h p) _ (Finset.max'_mem (activeCols w h p) hc)
    have hrm := Finset.min'_le (activeRows w h p) _ (Finset.max'_mem (activeRows w h p) hr)
    refine ⟨hminc.2, by simpa using hmaxc.2, hminr.2, by simpa using hmaxr.2, ?_, ?_, ?_, ?_, ?_⟩
    · intro x y hx hy hp
      have hxm : x ∈ activeCols w h p := mem_activeCols.mpr ⟨hx, y, hy, hp⟩
      have hym : y ∈ activeRows w h p := mem_activeRows.mpr ⟨hy, x, hx, hp⟩
      have l1 := Finset.min'_le (activeCols w h p) x hxm
      have l2 := Finset.le_max' (activeCols w h p) x hxm
      have l3 := Finset.min'_le (activeRows w h p) y hym
      have l4 := Finset.le_max' (activeRows w h p) y hym
      omega
    · omega
    · omega
    · omega
    · omega

lemma bboxOf_full {w h : ℕ} {p : ℕ → ℕ → Bool} (hw : 0 < w) (hh : 0 < h)
    (hp : ∀ x y, x < w → y < h → p x y = true) : bboxOf w h p = some (0, 0, w, h) := by
  have hc0 : (0 : ℕ) ∈ activeCols w h p := mem_activeCols.mpr ⟨hw, 0, hh, hp 0 0 hw hh⟩
  have hcm : (w - 1) ∈ activeCols w h p :=
    mem_activeCols.mpr ⟨by omega, 0, hh, hp (w - 1) 0 (by omega) hh⟩
  have hr0 : (0 : ℕ) ∈ activeRows w h p := mem_activeRows.mpr ⟨hh, 0, hw, hp 0 0 hw hh⟩
  have hrm : (h - 1) ∈ activeRows w h p :=
    mem_activeRows.mpr ⟨by omega, 0, hw, hp 0 (h - 1) hw (by omega)⟩
  have hcne : (activeCols w h p).Nonempty := ⟨0, hc0⟩
  have hrne : (activeRows w h p).Nonempty := ⟨0, hr0⟩
  rw [bboxOf, dif_pos ⟨hcne, hrne⟩]
  have e1 : (activeCols w h p).min' hcne = 0 :=
    le_antisymm (Finset.min'_le _ _ hc0) (Nat.zero_le _)
  have e2 : (activeCols w h p).max' hcne = w - 1 := by
    have hm := Finset.max'_mem (activeCols w h p) hcne
    rw [mem_activeCols] at hm
    exact le_antisymm (by omega) (Finset.le_max' _ _ hcm)
  have e3 : (activeRows w h p).min' hrne = 0 :=
    le_antisymm (Finset.min'_le _ _ hr0) (Nat.zero_le _)
  have e4 : (activeRows w h p).max' hrne = h - 1 := by
    have hm := Finset.max'_mem (activeRows w h p) hrne
    rw [mem_activeRows] at hm
    exact le_antisymm (by omega) (Finset.le_max' _ _ hrm)
  rw [e1, e2, e3, e4]
  have ew : w - 1 + 1 = w := by omega
  have eh : h - 1 + 1 = h := by omega
  rw [ew, eh]

lemma bboxOf_zero {w h : ℕ} {p : ℕ → ℕ → Bool} (hz : w = 0 ∨ h = 0) :
    bboxOf w h p = none := by
  rw [bboxOf_eq_none]
  intro x y hx hy
  omega

lemma bboxOf_crop {w h : ℕ} {p : ℕ → ℕ → Bool} {l u r d : ℕ}
    (hb : bboxOf w h p = some (l, u, r, d)) :
    bboxOf (r - l) (d - u) (fun x y => p (x + l) (y + u)) = some (0, 0, r - l, d - u) := by
  obtain ⟨⟨y0, hy0, hp0⟩, ⟨y1, hy1, hp1⟩, ⟨x0, hx0, hq0⟩, ⟨x1, hx1, hq1⟩,
    hall, hlr, hrw, hud, hdh⟩ := bboxOf_spec hb
  have hy0r := hall l y0 (by omega) hy0 hp0
  have hy1r := hall (r - 1) y1 (by omega) hy1 hp1
  have hx0r := hall x0 u hx0 (by omega) hq0
  have hx1r := hall x1 (d - 1) hx1 (by omega) hq1
  have m0 : (0 : ℕ) ∈ activeCols (r - l) (d - u) (fun x y => p (x + l) (y + u)) := by
    refine mem_activeCols.mpr ⟨by omega, y0 - u, by omega, ?_⟩
    show p (0 + l) (y0 - u + u) = true
    rw [Nat.zero_add, Nat.sub_add_cancel (by omega)]
    exact hp0
  have m1 : (r - l - 1) ∈ activeCols (r - l) (d - u) (fun x y => p (x + l) (y + u)) := by
    refine mem_activeCols.mpr ⟨by omega, y1 - u, by omega, ?_⟩
    show p (r - l - 1 + l) (y1 - u + u) = true
    rw [Nat.sub_add_cancel (by omega)]
    have hx : r - l - 1 + l = r - 1 := by omega
    rw [hx]
    exact hp1
  have m2 : (0 : ℕ) ∈ activeRows (r - l) (d - u) (fun x y => p (x + l) (y + u)) := by
    refine mem_activeRows.mpr ⟨by omega, x0 - l, by omega, ?_⟩
    show p (x0 - l + l) (0 + u) = true
    rw [Nat.zero_add, Nat.sub_add_cancel (by omega)]
    exact hq0
  have m3 : (d - u - 1) ∈ activeRows (r - l) (d - u) (fun x y => p (x + l) (y + u)) := by
    refine mem_activeRows.mpr ⟨by omega, x1 - l, by omega, ?_⟩
    show p (x1 - l + l) (d - u - 1 + u) = true
    rw [Nat.sub_add_cancel (by omega)]
    have hy : d - u - 1 + u = d - 1 := by omega
    rw [hy]
    exact hq1
  have hcne : (activeCols (r - l) (d - u) (fun x y => p (x + l) (y + u))).Nonempty := ⟨0, m0⟩
  have hrne : (activeRows (r - l) (d - u) (fun x y => p (x + l) (y + u))).Nonempty := ⟨0, m2⟩
  rw [bboxOf, dif_pos ⟨hcne, hrne⟩]
  have e1 : (activeCols (r - l) (d - u) (fun x y => p (x + l) (y + u))).min' hcne = 0 :=
    le_antisymm (Finset.min'_le _ _ m0) (Nat.zero_le _)
  have e2 : (activeCols (r - l) (d - u) (fun x y => p (x + l) (y + u))).max' hcne = r - l - 1 := by
    have hm := Finset.max'_mem (activeCols (r - l) (d - u) (fun x y => p (x + l) (y + u))) hcne
    rw [mem_activeCols] at hm
    exact le_antisymm (by omega) (Finset.le_max' _ _ m1)
  have e3 : (activeRows (r - l) (d - u) (fun x y => p (x + l) (y + u))).min' hrne = 0 :=
    le_antisymm (Finset.min'_le _ _ m2) (Nat.zero_le _)
  have e4 : (activeRows (r - l) (d - u) (fun x y => p (x + l) (y + u))).max' hrne = d - u - 1 := by
    have hm := Finset.max'_mem (activeRows (r - l) (d - u) (fun x y => p (x + l) (y + u))) hrne
    rw [mem_activeRows] at hm
    exact le_antisymm (by omega) (Finset.le_max' _ _ m3)
  rw [e1, e2, e3, e4]
  have ew : r - l - 1 + 1 = r - l := by omega
  have eh : d - u - 1 + 1 = d - u := by omega
  rw [ew, eh]

@[simp] lemma convertRGBA_mode (im : Img) : im.convertRGBA.mode = .RGBA := rfl

@[simp] lemma convertRGBA_width (im : Img) : im.convertRGBA.width = im.width := rfl

@[simp] lemma convertRGBA_height (im : Img) : im.convertRGBA.height = im.height := rfl

@[simp] lemma convertRGB_mode (im : Img) : im.convertRGB.mode = .RGB := rfl

@[simp] lemma convertRGB_width (im : Img) : im.convertRGB.width = im.width := rfl

@[simp] lemma convertRGB_height (im : Img) : im.convertRGB.height = im.height := rfl

@[simp] lemma crop_mode (im : Img) (bb : ℕ × ℕ × ℕ × ℕ) : (im.crop bb).mode = im.mode := rfl

@[simp] lemma crop_transparency (im : Img) (bb : ℕ × ℕ × ℕ × ℕ) :
    (im.crop bb).transparency = im.transparency := rfl

lemma convertRGBA_of_RGBA {im : Img} (h : im.mode = .RGBA) : im.convertRGBA = im := by
  cases im with
  | mk m w hh px tr =>
    simp only [Img.mode] at h
    subst h
    simp [Img.convertRGBA]

lemma contentEq_refl (a : Img) : contentEq a a := ⟨rfl, rfl, fun _ _ _ _ => rfl⟩

lemma contentEq_of_eqOn {a b : Img} (hm : a.mode = b.mode) (ht : a.transparency = b.transparency)
    (hw : a.width = b.width) (hh : a.height = b.height)
    (hp : ∀ x y, x < b.width → y < b.height → a.px x y = b.px x y) : contentEq a b := by
  refine ⟨hw, hh, fun x y hx hy => ?_⟩
  show (Img.convertRGBA a).px x y = (Img.convertRGBA b).px x y
  simp only [Img.convertRGBA]
  rw [hm, ht, hp x y hx hy]

lemma contentEq_convert_crop_full (im : Img) :
    contentEq (im.convertRGBA.crop (0, 0, im.width, im.height)) im := by
  refine ⟨by simp [Img.crop], by simp [Img.crop], fun x y hx hy => ?_⟩
  have hc : (im.convertRGBA.crop (0, 0, im.width, im.height)).convertRGBA
      = im.convertRGBA.crop (0, 0, im.width, im.height) :=
    convertRGBA_of_RGBA (by simp)
  rw [hc]
  show im.convertRGBA.px (x + 0) (y + 0) = im.convertRGBA.px x y
  rw [Nat.add_zero, Nat.add_zero]

lemma pyRound_intCast (n : ℤ) : pyRound (n : ℚ) = n := by
  unfold pyRound
  rw [Int.floor_intCast]
  have h0 : ((n : ℚ) - (n : ℚ)) = 0 := sub_self _
  rw [h0, if_pos (by norm_num)]

lemma pyRound_le_intCast {x : ℚ} {m : ℤ} (h : x ≤ (m : ℚ)) : pyRound x ≤ m := by
  unfold pyRound
  have hfl : ⌊x⌋ ≤ m := by
    have := Int.floor_le_floor h
    rwa [Int.floor_intCast] at this
  split_ifs with h1 h2 h3
  · exact hfl
  all_goals first
  | exact hfl
  | · have hhalf : (1 : ℚ)/2 ≤ x - ⌊x⌋ := not_lt.mp h1
      have hlt : ((⌊x⌋ : ℤ) : ℚ) < x := by linarith
      have hm : ⌊x⌋ < m := by
        by_contra hc
        push_neg at hc
        have hcq : ((m : ℤ) : ℚ) ≤ ((⌊x⌋ : ℤ) : ℚ) := by exact_mod_cast hc
        linarith
      omega

lemma fit_binding (w h : ℕ) (tw th : ℤ) (hw : 0 < w) (hh : 0 < h)
    (htw : 0 < tw) (hth : 0 < th) :
    (max 1 (pyRound ((w : ℚ) * min ((tw : ℚ) / (w : ℚ)) ((th : ℚ) / (h : ℚ)))) = tw ∧
     max 1 (pyRound ((h : ℚ) * min ((tw : ℚ) / (w : ℚ)) ((th : ℚ) / (h : ℚ)))) ≤ th) ∨
    (max 1 (pyRound ((h : ℚ) * min ((tw : ℚ) / (w : ℚ)) ((th : ℚ) / (h : ℚ)))) = th ∧
     max 1 (pyRound ((w : ℚ) * min ((tw : ℚ) / (w : ℚ)) ((th : ℚ) / (h : ℚ)))) ≤ tw) := by
  have hw0 : ((w : ℕ) : ℚ) ≠ 0 := Nat.cast_ne_zero.mpr hw.ne'
  have hh0 : ((h : ℕ) : ℚ) ≠ 0 := Nat.cast_ne_zero.mpr hh.ne'
  rcases le_total ((tw : ℚ) / (w : ℚ)) ((th : ℚ) / (h : ℚ)) with hc | hc
  · left
    have hmin : min ((tw : ℚ) / (w : ℚ)) ((th : ℚ) / (h : ℚ)) = (tw : ℚ) / (w : ℚ) :=
      min_eq_left hc
    constructor
    · rw [hmin, mul_comm, div_mul_cancel₀ _ hw0, pyRound_intCast]
      exact max_eq_right (by omega)
    · rw [hmin]
      have h2 : (h : ℚ) * ((tw : ℚ) / (w : ℚ)) ≤ (h : ℚ) * ((th : ℚ) / (h : ℚ)) :=
        mul_le_mul_of_nonneg_left hc (by positivity)
      have h3 : (h : ℚ) * ((th : ℚ) / (h : ℚ)) = (th : ℚ) := by
        rw [mul_comm, div_mul_cancel₀ _ hh0]
      have h4 : (h : ℚ) * ((tw : ℚ) / (w : ℚ)) ≤ ((th : ℤ) : ℚ) := by
        rw [h3] at h2; exact_mod_cast h2
      exact max_le (by omega) (pyRound_le_intCast h4)
  · right
    have hmin : min ((tw : ℚ) / (w : ℚ)) ((th : ℚ) / (h : ℚ)) = (th : ℚ) / (h : ℚ) :=
      min_eq_right hc
    constructor
    · rw [hmin, mul_comm, div_mul_cancel₀ _ hh0, pyRound_intCast]
      exact max_eq_right (by omega)
    · rw [hmin]
      have h2 : (w : ℚ) * ((th : ℚ) / (h : ℚ)) ≤ (w : ℚ) * ((tw : ℚ) / (w : ℚ)) :=
        mul_le_mul_of_nonneg_left hc (by positivity)
      have h3 : (w : ℚ) * ((tw : ℚ) / (w : ℚ)) = (tw : ℚ) := by
        rw [mul_comm, div_mul_cancel₀ _ hw0]
      have h4 : (w : ℚ) * ((th : ℚ) / (h : ℚ)) ≤ ((tw : ℤ) : ℚ) := by
        rw [h3] at h2; exact_mod_cast h2
      exact max_le (by omega) (pyRound_le_intCast h4)

lemma convertRGBA_px_none {V : Img} (hm : V.mode = .L ∨ V.mode = .RGB)
    (ht : V.transparency = none) (x y : ℕ) :
    V.convertRGBA.px x y = ((V.px x y).1, (V.px x y).2.1, (V.px x y).2.2.1, 255) := by
  rcases hm with hm | hm <;> simp [Img.convertRGBA, hm, ht]

lemma convertRGBA_px_keyed {V : Img} {k : ℕ × ℕ × ℕ} (hm : V.mode = .L ∨ V.mode = .RGB)
    (ht : V.transparency = some k) (x y : ℕ) :
    V.convertRGBA.px x y = ((V.px x y).1, (V.px x y).2.1, (V.px x y).2.2.1,
      if rgbOf (V.px x y) = k then 0 else 255) := by
  rcases hm with hm | hm <;> simp [Img.convertRGBA, hm, ht]

lemma autocrop_caseA {im : Img} {l u r d : ℕ}
    (hb : bboxOf im.convertRGBA.width im.convertRGBA.height (nzA im.convertRGBA)
          = some (l, u, r, d)) :
    contentEq (autocrop_auto (im.convertRGBA.crop (l, u, r, d)))
      (im.convertRGBA.crop (l, u, r, d)) := by
  set R := im.convertRGBA.crop (l, u, r, d) with hR
  have hRmode : R.mode = .RGBA := by rw [hR]; simp
  have hconv : R.convertRGBA = R := convertRGBA_of_RGBA hRmode
  have hb2 : bboxOf R.convertRGBA.width R.convertRGBA.height (nzA R.convertRGBA)
      = some (0, 0, r - l, d - u) := by
    rw [hconv]
    exact bboxOf_crop (p := nzA im.convertRGBA) hb
  have h3 : autocrop_auto R = R.convertRGBA.crop (0, 0, r - l, d - u) := by
    unfold autocrop_auto
    rw [hb2]
  rw [h3, hconv]
  have h4 := contentEq_convert_crop_full R
  rw [hconv] at h4
  exact h4

lemma autocrop_auto_of_RGB {V : Img} (hm : V.mode = .RGB)
    (hkey : ∀ k, V.transparency = some k →
      ∀ x y, x < V.width → y < V.height → rgbOf (V.px x y) = k) :
    contentEq (autocrop_auto V) V := by
  rcases ht : V.transparency with _ | k
  · -- no colour key: the RGBA conversion is fully opaque
    by_cases hpos : 0 < V.width ∧ 0 < V.height
    · have hfull : bboxOf V.convertRGBA.width V.convertRGBA.height (nzA V.convertRGBA)
          = some (0, 0, V.width, V.height) := by
        have h0 : bboxOf V.width V.height (nzA V.convertRGBA)
            = some (0, 0, V.width, V.height) := by
          refine bboxOf_full hpos.1 hpos.2 (fun x y hx hy => ?_)
          simp [nzA, convertRGBA_px_none (Or.inr hm) ht, alphaOf]
        simpa using h0
      have h3 : autocrop_auto V = V.convertRGBA.crop (0, 0, V.width, V.height) := by
        unfold autocrop_auto
        rw [hfull]
      rw [h3]
      exact contentEq_convert_crop_full V
    · have hz : V.width = 0 ∨ V.height = 0 := by omega
      have hnz : bboxOf V.convertRGBA.width V.convertRGBA.height (nzA V.convertRGBA) = none := by
        have h0 : bboxOf V.width V.height (nzA V.convertRGBA) = none := bboxOf_zero hz
        simpa using h0
      have h3 : autocrop_auto V = autocrop_white V := by
        unfold autocrop_auto
        rw [hnz]
      have h4 : autocrop_white V = V := by
        simp only [autocrop_white, hm]
        rw [if_neg (by simp)]
        rw [bboxOf_zero hz]
      rw [h3, h4]
      exact contentEq_refl V
  · -- colour key k: by hypothesis the visible pixels are uniformly k
    have hu := hkey k ht
    have hnz : bboxOf V.convertRGBA.width V.convertRGBA.height (nzA V.convertRGBA) = none := by
      have h0 : bboxOf V.width V.height (nzA V.convertRGBA) = none := by
        rw [bboxOf_eq_none]
        intro x y hx hy
        simp [nzA, convertRGBA_px_keyed (Or.inr hm) ht, alphaOf, hu x y hx hy]
      simpa using h0
    have h3 : autocrop_auto V = autocrop_white V := by
      unfold autocrop_auto
      rw [hnz]
    rw [h3]
    by_cases hkw : k = ((255, 255, 255) : ℕ × ℕ × ℕ)
    · have hdn : bboxOf V.width V.height (dW V (255, 255, 255)) = none := by
        rw [bboxOf_eq_none]
        intro x y hx hy
        simp [dW, hu x y hx hy, hkw]
      have h4 : autocrop_white V = V := by
        simp only [autocrop_white, hm]
        rw [if_neg (by simp)]
        rw [hdn]
      rw [h4]
      exact contentEq_refl V
    · by_cases hpos : 0 < V.width ∧ 0 < V.height
      · have hdf : bboxOf V.width V.height (dW V (255, 255, 255))
            = some (0, 0, V.width, V.height) := by
          refine bboxOf_full hpos.1 hpos.2 (fun x y hx hy => ?_)
          simp [dW, hu x y hx hy, hkw]
        have h4 : autocrop_white V = V.crop (0, 0, V.width, V.height) := by
          simp only [autocrop_white, hm]
          rw [if_neg (by simp)]
          rw [hdf]
        rw [h4]
        refine contentEq_of_eqOn (by simp) (by simp) (by simp [Img.crop]) (by simp [Img.crop]) ?_
        intro x y hx hy
        show V.px (x + 0) (y + 0) = V.px x y
        rw [Nat.add_zero, Nat.add_zero]
      · have hz : V.width = 0 ∨ V.height = 0 := by omega
        have h4 : autocrop_white V = V := by
          simp only [autocrop_white, hm]
          rw [if_neg (by simp)]
          rw [bboxOf_zero hz]
        rw [h4]
        exact contentEq_refl V

lemma autocrop_white_reach {im : Img}
    (hnone : bboxOf im.convertRGBA.width im.convertRGBA.height (nzA im.convertRGBA) = none) :
    (autocrop_white im).mode = .RGB ∧
    ∀ k, (autocrop_white im).transparency = some k →
      ∀ x y, x < (autocrop_white im).width → y < (autocrop_white im).height →
        rgbOf ((autocrop_white im).px x y) = k := by
  have hA : ∀ x y, x < im.width → y < im.height → nzA im.convertRGBA x y = false := by
    have h0 : bboxOf im.width im.height (nzA im.convertRGBA) = none := by simpa using hnone
    rw [bboxOf_eq_none] at h0
    exact h0
  by_cases him : im.mode = .RGB
  · have hw : autocrop_white im =
        match bboxOf im.width im.height (dW im (255, 255, 255)) with
        | some bb => im.crop bb
        | none => im := by
      simp only [autocrop_white, him]
      rw [if_neg (by simp)]
    have huim : ∀ k, im.transparency = some k →
        ∀ x y, x < im.width → y < im.height → rgbOf (im.px x y) = k := by
      intro k hk x y hx hy
      have h1 : alphaOf (im.convertRGBA.px x y) = 0 := by
        have h2 := hA x y hx hy
        simpa [nzA] using h2
      rw [convertRGBA_px_keyed (Or.inr him) hk] at h1
      simp only [alphaOf] at h1
      by_contra hne
      rw [if_neg hne] at h1
      exact absurd h1 (by norm_num)
    rw [hw]
    rcases hd : bboxOf im.width im.height (dW im (255, 255, 255)) with _ | ⟨l, u, r, d⟩
    · exact ⟨him, huim⟩
    · obtain ⟨_, _, _, _, _, hlr, hrw, hud, hdh⟩ := bboxOf_spec hd
      refine ⟨by simp [him], fun k hk x y hx hy => ?_⟩
      have hk' : im.transparency = some k := by simpa using hk
      simp only [Img.crop] at hx hy
      exact huim k hk' (x + l) (y + u) (by omega) (by omega)
  · have hw : autocrop_white im =
        match bboxOf im.width im.height (dW im.convertRGB (255, 255, 255)) with
        | some bb => im.convertRGB.crop bb
        | none => im.convertRGB := by
      simp only [autocrop_white]
      rw [if_pos (by simp [him])]
      rfl
    have huim2 : ∀ k, im.convertRGB.transparency = some k →
        ∀ x y, x < im.width → y < im.height → rgbOf (im.convertRGB.px x y) = k := by
      intro k hk x y hx hy
      have himL : im.mode = .L ∧ im.transparency = some k := by
        rcases hmode : im.mode with _ | _ | _ | _
        · exact ⟨rfl, by simpa [Img.convertRGB, hmode] using hk⟩
        · exfalso; simp [Img.convertRGB, hmode] at hk
        · exact absurd hmode him
        · exfalso; simp [Img.convertRGB, hmode] at hk
      have h1 : alphaOf (im.convertRGBA.px x y) = 0 := by
        have h2 := hA x y hx hy
        simpa [nzA] using h2
      rw [convertRGBA_px_keyed (Or.inl himL.1) himL.2] at h1
      simp only [alphaOf] at h1
      have hrgb : rgbOf (im.convertRGB.px x y) = rgbOf (im.px x y) := rfl
      rw [hrgb]
      by_contra hne
      rw [if_neg hne] at h1
      exact absurd h1 (by norm_num)
    rw [hw]
    rcases hd : bboxOf im.width im.height (dW im.convertRGB (255, 255, 255)) with _ | ⟨l, u, r, d⟩
    · exact ⟨by simp, fun k hk x y hx hy =>
        huim2 k hk x y (by simpa using hx) (by simpa using hy)⟩
    · obtain ⟨_, _, _, _, _, hlr, hrw, hud, hdh⟩ := bboxOf_spec hd
      refine ⟨by simp, fun k hk x y hx hy => ?_⟩
      have hk' : im.convertRGB.transparency = some k := by simpa using hk
      simp only [Img.crop] at hx hy
      exact huim2 k hk' (x + l) (y + u) (by omega) (by omega)

/-- Claim C9: the autocrop operation of the Pre-processor is idempotent —
applying `autocrop_auto` to its own result yields an image with the same
dimensions and the same pixel content (the second application finds the same
bounding box and performs no further shrinkage). -/
theorem autocrop_auto_idem (im : Img) :
    contentEq (autocrop_auto (autocrop_auto im)) (autocrop_auto im) := by
  rcases hb : bboxOf im.convertRGBA.width im.convertRGBA.height (nzA im.convertRGBA)
    with _ | ⟨l, u, r, d⟩
  · have h1 : autocrop_auto im = autocrop_white im := by
      unfold autocrop_auto
      rw [hb]
    rw [h1]
    obtain ⟨hm, hkey⟩ := autocrop_white_reach hb
    exact autocrop_auto_of_RGB hm hkey
  · have h1 : autocrop_auto im = im.convertRGBA.crop (l, u, r, d) := by
      unfold autocrop_auto
      rw [hb]
    rw [h1]
    exact autocrop_caseA hb

lemma int_fdiv_two_le {a : ℤ} (h : 0 ≤ a) : Int.fdiv a 2 ≤ a := by
  have k := Int.fdiv_add_fmod a 2
  have h1 := Int.fdiv_nonneg h (by norm_num : (0 : ℤ) ≤ 2)
  have h2 := Int.fmod_nonneg h (by norm_num : (0 : ℤ) ≤ 2)
  omega

/-- Claim C1 (evidence of the code bug): on a 3×3 `RGB` image (no alpha, no
colour key) that is white except for one black pixel at (1, 1), the claimed
behaviour is a crop to the 1×1 bounding box of the non-white region; but
`autocrop_auto` converts the image to `RGBA` with a fully opaque alpha band,
finds the full-image alpha bounding box, and returns the image uncropped
(3×3).  The white-difference bounding box is (1, 1, 2, 2), and
`autocrop_white` — written for exactly this case — would crop to 1×1, but is
unreachable for alpha-less images. -/
theorem autocrop_nonalpha_uncropped :
    (autocrop_auto c1Img).width = 3 ∧ (autocrop_auto c1Img).height = 3 ∧
    bboxOf c1Img.width c1Img.height (dW c1Img (255, 255, 255)) = some (1, 1, 2, 2) ∧
    (autocrop_white c1Img).width = 1 ∧ (autocrop_white c1Img).height = 1 := by
  decide

/-- Claim C2: resolving size key "A4" from the A-series catalog at 300 dpi
with vertical orientation yields exactly (2480, 3508), where
2480 = round(210/25.4*300) and 3508 = round(297/25.4*300). -/
theorem a4_300_vertical_px :
    paper_size_px "A4" 300 "vertical" A_SIZES_MM.entries = .ok (2480, 3508) ∧
    mm_to_px 210 300 = pyRound ((210 : ℚ) / 25.4 * 300) ∧
    mm_to_px 210 300 = 2480 ∧ mm_to_px 297 300 = 3508 := by
  have h1 : mm_to_px 210 300 = 2480 := by norm_num [mm_to_px, pyRound]
  have h2 : mm_to_px 297 300 = 3508 := by norm_num [mm_to_px, pyRound]
  refine ⟨?_, rfl, h1, h2⟩
  have h0 : paper_size_px "A4" 300 "vertical" A_SIZES_MM.entries
      = .ok (mm_to_px 210 300, mm_to_px 297 300) := by rfl
  rw [h0, h1, h2]

/-- Claim C7 (counterexample): the orientation string "H" is not a member of
the three-element synonym set {"horizontal", "landscape", "h"}, yet the code
swaps the (width, height) pair for it — the code tests membership of the
lowercased string, so the claim's "swapped only if a member of the set" is
false as stated. -/
theorem orientation_swap_uppercase_h :
    paper_size_px "A4" 300 "H" A_SIZES_MM.entries = .ok (3508, 2480) ∧
    "H" ∉ (["horizontal", "landscape", "h"] : List String) := by
  constructor
  · have h1 : mm_to_px 297 300 = 3508 := by norm_num [mm_to_px, pyRound]
    have h2 : mm_to_px 210 300 = 2480 := by norm_num [mm_to_px, pyRound]
    have h0 : paper_size_px "A4" 300 "H" A_SIZES_MM.entries
        = .ok (mm_to_px 297 300, mm_to_px 210 300) := by rfl
    rw [h0, h1, h2]
  · decide

/-- Claim C7 (amended): for every orientation string, the (width, height)
pair is swapped if and only if the lowercased string is a member of
{"horizontal", "landscape", "h"}; any string whose lowercasing is outside
the set (including "vertical") is not swapped. -/
theorem orientation_swap_iff (size_key s : String) (dpi : ℚ)
    (L : List (String × ℚ × ℚ)) (w h : ℚ)
    (hlk : L.lookup (pyUpper size_key) = some (w, h)) :
    paper_size_px size_key dpi s L =
      .ok (if pyLower s ∈ (["horizontal", "landscape", "h"] : List String)
           then (mm_to_px h dpi, mm_to_px w dpi)
           else (mm_to_px w dpi, mm_to_px h dpi)) := by
  simp only [paper_size_px]
  rw [hlk]
  by_cases hc : pyLower s ∈ (["horizontal", "landscape", "h"] : List String)
  · simp [hc]
  · simp [hc]

/-- Witness for the amended claim C7 at the concrete orientation
"Landscape": its lowercasing is in the synonym set, so A4 at 300 dpi
resolves to the swapped pair. -/
theorem orientation_swap_iff_witness :
    (A_SIZES_MM.entries.lookup (pyUpper "A4") = some (210, 297)) ∧
    paper_size_px "A4" 300 "Landscape" A_SIZES_MM.entries =
      .ok (if pyLower "Landscape" ∈ (["horizontal", "landscape", "h"] : List String)
           then (mm_to_px 297 300, mm_to_px 210 300)
           else (mm_to_px 210 300, mm_to_px 297 300)) :=
  ⟨rfl, orientation_swap_iff "A4" "Landscape" 300 A_SIZES_MM.entries 210 297 rfl⟩

/-- Claim C3: for every image with positive dimensions and every positive
target canvas, `fit` mode produces a canvas of exactly the target size and
never crops: the scaled content dimensions are `max 1 (round(dim * ratio))`
with `ratio = min(target_w/img_w, target_h/img_h)`, the binding dimension
equals its target while the other is at most its target, the paste offsets
are the floor-halved remaining margins, nonnegative, and offset plus content
size stays within the target on both axes. -/
theorem fit_never_crops (im : Img) (tw th : ℤ) (ha : Bool) (op : String)
    (bg : ℕ × ℕ × ℕ) (hw : 0 < im.width) (hh : 0 < im.height)
    (htw : 0 < tw) (hth : 0 < th) :
    (fitPlace im tw th ha op bg).width = tw.toNat ∧
    (fitPlace im tw th ha op bg).height = th.toNat ∧
    (fitGeometry im.width im.height tw th).1
      = max 1 (pyRound ((im.width : ℚ) *
          min ((tw : ℚ) / (im.width : ℚ)) ((th : ℚ) / (im.height : ℚ)))) ∧
    (fitGeometry im.width im.height tw th).2.1
      = max 1 (pyRound ((im.height : ℚ) *
          min ((tw : ℚ) / (im.width : ℚ)) ((th : ℚ) / (im.height : ℚ)))) ∧
    ((fitGeometry im.width im.height tw th).1 = tw ∧
       (fitGeometry im.width im.height tw th).2.1 ≤ th ∨
     (fitGeometry im.width im.height tw th).2.1 = th ∧
       (fitGeometry im.width im.height tw th).1 ≤ tw) ∧
    (fitGeometry im.width im.height tw th).2.2.1
      = Int.fdiv (tw - (fitGeometry im.width im.height tw th).1) 2 ∧
    (fitGeometry im.width im.height tw th).2.2.2
      = Int.fdiv (th - (fitGeometry im.width im.height tw th).2.1) 2 ∧
    0 ≤ (fitGeometry im.width im.height tw th).2.2.1 ∧
    0 ≤ (fitGeometry im.width im.height tw th).2.2.2 ∧
    (fitGeometry im.width im.height tw th).2.2.1
      + (fitGeometry im.width im.height tw th).1 ≤ tw ∧
    (fitGeometry im.width im.height tw th).2.2.2
      + (fitGeometry im.width im.height tw th).2.1 ≤ th := by
  have hb := fit_binding im.width im.height tw th hw hh htw hth
  have hnw : (fitGeometry im.width im.height tw th).1 ≤ tw ∧
      (fitGeometry im.width im.height tw th).2.1 ≤ th := by
    rcases hb with ⟨h1, h2⟩ | ⟨h1, h2⟩
    · exact ⟨le_of_eq h1, h2⟩
    · exact ⟨h2, le_of_eq h1⟩
  have hge1 : (1 : ℤ) ≤ (fitGeometry im.width im.height tw th).1 := le_max_left _ _
  have hge2 : (1 : ℤ) ≤ (fitGeometry im.width im.height tw th).2.1 := le_max_left _ _
  refine ⟨?_, ?_, rfl, rfl, hb, rfl, rfl, ?_, ?_, ?_, ?_⟩
  · by_cases hc : (ha && endsWithPng op) = true <;>
      simp [fitPlace, Img.paste, Img.new, hc]
  · by_cases hc : (ha && endsWithPng op) = true <;>
      simp [fitPlace, Img.paste, Img.new, hc]
  · exact Int.fdiv_nonneg (by omega) (by norm_num)
  · exact Int.fdiv_nonneg (by omega) (by norm_num)
  · have e3 : (fitGeometry im.width im.height tw th).2.2.1
        = Int.fdiv (tw - (fitGeometry im.width im.height tw th).1) 2 := rfl
    have h4 := int_fdiv_two_le (a := tw - (fitGeometry im.width im.height tw th).1) (by omega)
    omega
  · have e4 : (fitGeometry im.width im.height tw th).2.2.2
        = Int.fdiv (th - (fitGeometry im.width im.height tw th).2.1) 2 := rfl
    have h4 := int_fdiv_two_le (a := th - (fitGeometry im.width im.height tw th).2.1) (by omega)
    omega

/-- Witness for claim C3 at a 100×50 image and a 200×100 target. -/
theorem fit_never_crops_witness :
    0 < imC3.width ∧ 0 < imC3.height ∧ (0 : ℤ) < 200 ∧ (0 : ℤ) < 100 ∧
    (fitPlace imC3 200 100 false "o.jpg" (255, 255, 255)).width = (200 : ℤ).toNat :=
  ⟨by decide, by decide, by decide, by decide,
   (fit_never_crops imC3 200 100 false "o.jpg" (255, 255, 255)
     (by decide) (by decide) (by decide) (by decide)).1⟩

/-- Claim C4: for a page-description source (extension in `PS_PDF_EXTS`) on a
system without Ghostscript, with a valid size key: if the skip flag is set,
the pipeline returns (does not throw) the error record with kind
`GS_REQUIRED`, its message, and the resolved source path; if the skip flag is
unset, the call throws (the Ghostscript-not-found error propagates). -/
theorem gs_required_behavior (env : Env) (a : Args)
    (hext : extOf env.resolvedPath ∈ PS_PDF_EXTS)
    (hgs : env.gsFound = false)
    (hex : env.fileExists = true)
    (hsz : ∃ wh, paper_size_px a.size_key a.dpi a.landscape a.sizes_mm.entries = .ok wh) :
    (a.skip_gs_files = true →
      resize_to_a_size env a =
        (.ok (.errRec "GS_REQUIRED"
          "EPS/AI/PDF needs Ghostscript. Install Ghostscript or convert to PNG/JPG first."
          env.resolvedPath), 0)) ∧
    (a.skip_gs_files = false →
      resize_to_a_size env a = (.error .gsNotFound, 0)) := by
  obtain ⟨wh, hwh⟩ := hsz
  constructor <;> intro hskip <;>
    simp [resize_to_a_size, open_image_any, rasterize_with_ghostscript,
      hwh, hgs, hex, hext, hskip]

/-- Witness for claim C4: a `.pdf` source with Ghostscript absent, run once
with the skip flag set and once with it unset. -/
theorem gs_required_behavior_witness :
    (extOf env4.resolvedPath ∈ PS_PDF_EXTS) ∧ env4.gsFound = false ∧
    env4.fileExists = true ∧
    resize_to_a_size env4 args4 =
      (.ok (.errRec "GS_REQUIRED"
        "EPS/AI/PDF needs Ghostscript. Install Ghostscript or convert to PNG/JPG first."
        env4.resolvedPath), 0) ∧
    resize_to_a_size env4 { args4 with skip_gs_files := false } = (.error .gsNotFound, 0) :=
  ⟨by decide, rfl, rfl,
   (gs_required_behavior env4 args4 (by decide) rfl rfl
     ⟨(mm_to_px 210 300, mm_to_px 297 300), rfl⟩).1 rfl,
   (gs_required_behavior env4 { args4 with skip_gs_files := false } (by decide) rfl rfl
     ⟨(mm_to_px 210 300, mm_to_px 297 300), rfl⟩).2 rfl⟩

lemma raw_not_ps_pdf {s : String} (hs : s ∈ RAW_EXTS) : s ∉ PS_PDF_EXTS := by
  fin_cases hs <;> decide

/-- Claim C5: for a RAW-extension source whose generic raster decode and RAW
demosaic decode both fail, the decoder cascade raises the RAW decode error —
for both values of both skip flags — and in particular never returns the
no-image sentinel. -/
theorem raw_decode_unconditional (env : Env) (sg sv : Bool)
    (hex : env.fileExists = true)
    (hext : extOf env.resolvedPath ∈ RAW_EXTS)
    (hpil : env.pillowImage = none) (hraw : env.rawImage = none) :
    open_image_any env sg sv = (.error (.rawDecodeFailed env.resolvedPath), 0) := by
  have hnp : extOf env.resolvedPath ∉ PS_PDF_EXTS := raw_not_ps_pdf hext
  simp [open_image_any, hex, hnp, hext, hpil, hraw]

/-- Witness for claim C5: an undecodable `.cr2` source, with both skip-flag
combinations at the extremes. -/
theorem raw_decode_unconditional_witness :
    env5.fileExists = true ∧ (extOf env5.resolvedPath ∈ RAW_EXTS) ∧
    open_image_any env5 true true = (.error (.rawDecodeFailed "/in/shot.cr2"), 0) ∧
    open_image_any env5 false false = (.error (.rawDecodeFailed "/in/shot.cr2"), 0) :=
  ⟨rfl, by decide,
   raw_decode_unconditional env5 true true rfl (by decide) rfl rfl,
   raw_decode_unconditional env5 false false rfl (by decide) rfl rfl⟩

/-- Claim C6 (evidence of the code bug): on a `.pdf` source where
Ghostscript is found and exits 0 but the raster decoder cannot open the temp
PNG it wrote, the call completes (returning the `GS_REQUIRED` error record,
since the skip flag is set) with one temp raster file still on disk: the
temp file is removed only in the `CalledProcessError` handler and in the
`finally` block of a successful decode, and the `Image.open` failure path is
neither. -/
theorem temp_file_leak :
    retTemps (resize_to_a_size env6 args4) = 1 ∧
    retErrKind (resize_to_a_size env6 args4) = some "GS_REQUIRED" := by
  decide

lemma saveConvert_mode_ne (op : String) (out0 : Img) (hnp : endsWithPng op = false) :
    (saveConvert op out0).mode ≠ .RGBA := by
  unfold saveConvert
  split_ifs with hc
  · simp
  · intro hm
    exact hc ⟨hnp, hm⟩

lemma saveConvert_of_RGB (op : String) (out0 : Img) (h : out0.mode = .RGB) :
    (saveConvert op out0).mode = .RGB := by
  unfold saveConvert
  have hneg : ¬(endsWithPng op = false ∧ out0.mode = .RGBA) := by simp [h]
  rw [if_neg hneg]
  exact h

lemma flatten_convert_mode (im1 : Img) (bg : ℕ × ℕ × ℕ) :
    (flatten_alpha_to_bg im1.convertRGBA bg).mode = .RGB := by
  simp [flatten_alpha_to_bg]

lemma flatten_convert_transparency (im1 : Img) (bg : ℕ × ℕ × ℕ) :
    (flatten_alpha_to_bg im1.convertRGBA bg).transparency = none := by
  simp [flatten_alpha_to_bg]

lemma placeCanvas_mode_flat (pm op : String) (bg : ℕ × ℕ × ℕ) (tw th : ℤ) (im2 : Img)
    (hm : im2.mode = .RGB) (ht : im2.transparency = none) :
    (placeCanvas pm op bg tw th im2).mode = .RGB := by
  have hha : hasAlphaInfo im2 = false := by simp [hasAlphaInfo, hm, ht]
  unfold placeCanvas
  split_ifs with hc1 hc2
  · exact hm
  · exact hm
  · simp [fitPlace, hha, Img.paste, Img.new]

/-- Claim C8 (counterexample): with both pre-processing flags disabled,
stretch mode, an `LA` (grey+alpha) source, and the non-PNG output path
"out.tif", the saved raster is still in mode `LA` — it carries an alpha
channel — because the final conversion step only converts `RGBA` canvases. -/
theorem la_saved_with_alpha :
    endsWithPng args8.out_path = false ∧
    retSavedMode (resize_to_a_size env8 args8) = some .LA ∧
    hasAlphaMode .LA = true := by
  decide

/-- Claim C8 (amended): for every output path whose lowercased name does not
end in ".png", the canvas is converted to `RGB` before saving exactly when it
is in mode `RGBA`, so the saved raster is never `RGBA`; and whenever alpha
flattening is enabled (the default) the saved raster is exactly `RGB`, hence
opaque.  (An `LA` canvas — reachable only with both autocrop and flatten
disabled — is saved with its alpha intact, as the counterexample shows.) -/
theorem nonpng_saved_never_rgba (env : Env) (a : Args)
    (hnp : endsWithPng a.out_path = false) :
    retSavedMode (resize_to_a_size env a) ≠ some .RGBA ∧
    (a.flatten_alpha = true →
      ∀ m, retSavedMode (resize_to_a_size env a) = some m → m = .RGB) := by
  rcases hp : paper_size_px a.size_key a.dpi a.landscape a.sizes_mm.entries with e | wh
  · constructor
    · simp [retSizeDict, resize_to_a_size, hp, retSavedMode]
    · intro _ m hm
      simp [resize_to_a_size, hp, retSavedMode] at hm
  · rcases ho : open_image_any env a.skip_gs_files a.skip_svg_files with ⟨r, t⟩
    rcases r with e | oo
    · constructor
      · simp [resize_to_a_size, hp, ho, retSavedMode]
      · intro _ m hm
        simp [resize_to_a_size, hp, ho, retSavedMode] at hm
    · rcases oo with _ | o
      · constructor
        · simp only [resize_to_a_size, hp, ho]
          split_ifs <;> simp [retSavedMode]
        · intro _ m hm
          simp only [resize_to_a_size, hp, ho] at hm
          split_ifs at hm <;> simp [retSavedMode] at hm
      · have hsm : retSavedMode (resize_to_a_size env a)
            = some (processDecoded a.autocrop a.flatten_alpha a.pm a.out_path
                a.bg_color wh.1 wh.2 o.img).mode := by
          simp [resize_to_a_size, hp, ho, retSavedMode]
        have hne : (processDecoded a.autocrop a.flatten_alpha a.pm a.out_path
            a.bg_color wh.1 wh.2 o.img).mode ≠ .RGBA :=
          saveConvert_mode_ne a.out_path _ hnp
        constructor
        · rw [hsm]
          intro hcon
          exact hne (Option.some.inj hcon)
        · intro hfl m hm
          rw [hsm] at hm
          have hmode : (processDecoded a.autocrop a.flatten_alpha a.pm a.out_path
              a.bg_color wh.1 wh.2 o.img).mode = .RGB := by
            have h1 := flatten_convert_mode
              (if a.autocrop then autocrop_auto o.img else o.img) a.bg_color
            have h2 := flatten_convert_transparency
              (if a.autocrop then autocrop_auto o.img else o.img) a.bg_color
            have h3 := placeCanvas_mode_flat a.pm a.out_path a.bg_color wh.1 wh.2 _ h1 h2
            have h4 := saveConvert_of_RGB a.out_path _ h3
            simpa [processDecoded, hfl] using h4
          have h5 := Option.some.inj hm
          rw [← h5]
          exact hmode

/-- Witness for the amended claim C8: an opaque RGB source saved to
"out.jpg" in stretch mode with flatten enabled. -/
theorem nonpng_saved_never_rgba_witness :
    endsWithPng args9.out_path = false ∧
    (retSavedMode (resize_to_a_size env9 args9) ≠ some .RGBA ∧
     (args9.flatten_alpha = true →
       ∀ m, retSavedMode (resize_to_a_size env9 args9) = some m → m = .RGB)) :=
  ⟨by decide, nonpng_saved_never_rgba env9 args9 (by decide)⟩

/-- Claim C10: the `size_dict` field of the success record is determined by
object identity (`is`), not content equality — for every `sizes_mm` argument
that is not the very same object as one of the five module-level catalog
dicts (including a distinct dict equal in content to one of them), the field
is "CUSTOM". -/
theorem size_dict_by_identity (env : Env) (a : Args)
    (h1 : a.sizes_mm.ref ≠ A_SIZES_MM.ref)
    (h2 : a.sizes_mm.ref ≠ TWO_PER_THREE_SIZES_MM.ref)
    (h3 : a.sizes_mm.ref ≠ FOUR_PER_FIVE_SIZES_MM.ref)
    (h4 : a.sizes_mm.ref ≠ THREE_PER_FOUR_SIZES_MM.ref)
    (h5 : a.sizes_mm.ref ≠ ELEVEN_X_FOURTEEN_SIZES_MM.ref) :
    retSizeDict (resize_to_a_size env a) = none ∨
    retSizeDict (resize_to_a_size env a) = some "CUSTOM" := by
  have hname : sizeDictName a.sizes_mm = "CUSTOM" := by
    simp [sizeDictName, h1, h2, h3, h4, h5]
  rcases hp : paper_size_px a.size_key a.dpi a.landscape a.sizes_mm.entries with e | wh
  · left
    simp [retSizeDict, resize_to_a_size, hp]
  · rcases ho : open_image_any env a.skip_gs_files a.skip_svg_files with ⟨r, t⟩
    rcases r with e | oo
    · left
      simp [retSizeDict, resize_to_a_size, hp, ho]
    · rcases oo with _ | o
      · left
        simp only [resize_to_a_size, hp, ho]
        split_ifs <;> simp [retSizeDict]
      · right
        simp [retSizeDict, resize_to_a_size, hp, ho, hname]

/-- Witness for claim C10: `dCustom` has the same entries as `A_SIZES_MM`
but is a different object; the success record labels it "CUSTOM". -/
theorem size_dict_by_identity_witness :
    dCustom.entries = A_SIZES_MM.entries ∧ dCustom.ref ≠ A_SIZES_MM.ref ∧
    (retSizeDict (resize_to_a_size env9 args10) = none ∨
     retSizeDict (resize_to_a_size env9 args10) = some "CUSTOM") ∧
    retSizeDict (resize_to_a_size env9 args10) = some "CUSTOM" :=
  ⟨rfl, by decide,
   size_dict_by_identity env9 args10 (by decide) (by decide) (by decide) (by decide) (by decide),
   by decide⟩
